import Mathlib

/-!
# Shallow embedding of the CHIP-8 interpreter (`src/CHIP8.cpp`)

The state, the memory/register widths, `loadROM`, `fetch`, `reset`,
`decode` with its dispatch chain, and `initVM` are translated directly
from the C++ source.  Machine bytes are `Fin 256` (a `uint8_t` cell can
hold nothing else); wider machine integers are `Nat` with an explicit
`% 2 ^ w` at each point where the C++ type would wrap.
-/

/-- The `Chip8` struct (`src/CHIP8.cpp` lines 7–131): 4 KiB of RAM,
sixteen 8-bit registers `V`, the 16-bit index register `I`, the 16-bit
program counter `PC`, the 16-bit instruction latch `instr` (`char16_t`),
the 8-bit stack pointer `SP`, sixteen 16-bit stack slots, a 64×32
monochrome display, two 8-bit timers, and the 80-byte fontset member. -/
structure Chip8 where
  ram : Fin 4096 → Fin 256
  V : Fin 16 → Nat
  I : Nat
  PC : Nat
  instr : Nat
  SP : Nat
  stack : Fin 16 → Nat
  display : Fin 64 → Fin 32 → Bool
  dTimer : Nat
  sTimer : Nat
  fontset : Fin 80 → Fin 256

/-- The in-class initializer of the `fontset` member (lines 112–129):
the 80-byte "Cosmacvip" glyph table, 5 bytes per hexadecimal digit. -/
def fontsetBytes : List (Fin 256) :=
  [0xF0, 0x90, 0x90, 0x90, 0xF0,
   0x20, 0x60, 0x20, 0x20, 0x70,
   0xF0, 0x10, 0xF0, 0x80, 0xF0,
   0xF0, 0x10, 0xF0, 0x10, 0xF0,
   0x90, 0x90, 0xF0, 0x10, 0x10,
   0xF0, 0x80, 0xF0, 0x10, 0xF0,
   0xF0, 0x80, 0xF0, 0x90, 0xF0,
   0xF0, 0x10, 0x20, 0x40, 0x40,
   0xF0, 0x90, 0xF0, 0x90, 0xF0,
   0xF0, 0x90, 0xF0, 0x10, 0xF0,
   0xF0, 0x90, 0xF0, 0x90, 0x90,
   0xE0, 0x90, 0xE0, 0x90, 0xE0,
   0xF0, 0x80, 0x80, 0x80, 0xF0,
   0xE0, 0x90, 0x90, 0x90, 0xE0,
   0xF0, 0x80, 0xF0, 0x80, 0xF0,
   0xF0, 0x80, 0xF0, 0x80, 0x80]

/-- `#define OP 0xF000` (line 89). -/
def OP : Nat := 0xF000

/-- `#define Vx 0x0F00` (line 90). -/
def Vx : Nat := 0x0F00

/-- `#define Vy 0x00F0` (line 91). -/
def Vy : Nat := 0x00F0

/-- `#define N 0x000F` (line 92). -/
def N : Nat := 0x000F

/-- `#define NN 0x00FF` (line 93). -/
def NN : Nat := 0x00FF

/-- `#define NNN 0x0FFF` (line 94). -/
def NNN : Nat := 0x0FFF

/-- `u = vm->instr & OP` (line 229): the field the dispatch guards
compare against the opcode-group constants.  Note the source applies
only the mask, no right shift. -/
def field_u (w : Nat) : Nat := w &&& OP

/-- `x = vm->instr & Vx` (line 230): the register-select field as the
source computes it — mask only, without the `>> 8` shift. -/
def field_x (w : Nat) : Nat := w &&& Vx

/-- `y = vm->instr & Vy` (line 231): mask only, without the `>> 4`
shift. -/
def field_y (w : Nat) : Nat := w &&& Vy

/-- `n = vm->instr & N` (line 232). -/
def field_n (w : Nat) : Nat := w &&& N

/-- `kk = vm->instr & NN` (line 233). -/
def field_kk (w : Nat) : Nat := w &&& NN

/-- `nnn = vm->instr & NNN` (line 234). -/
def field_nnn (w : Nat) : Nat := w &&& NNN

/-- Read `V[i]`.  In the dispatch arms `i` is the unshifted `field_x` /
`field_y` value, which can exceed 15; a C++ out-of-range array read is
undefined behaviour, modelled here as 0.  Every arm performing such a
read sits under an unsatisfiable guard (see `dispatch_eq`). -/
def Vget (vm : Chip8) (i : Nat) : Nat :=
  if h : i < 16 then vm.V ⟨i, h⟩ else 0

/-- Write `V[i] = v` with the `uint8_t` wraparound.  An out-of-range
`i` (undefined behaviour in C++) updates nothing; again every such arm
is unreachable. -/
def Vset (vm : Chip8) (i v : Nat) : Chip8 :=
  { vm with V := fun j => if j.val = i then v % 256 else vm.V j }

/-- `reset` (lines 160–166): clear every pixel of a 64×32 array. -/
def reset (_arr : Fin 64 → Fin 32 → Bool) : Fin 64 → Fin 32 → Bool :=
  fun _ _ => false

/-- `fetch` (lines 154–158): `vm->instr = vm->ram[vm->PC]` — a single
unmasked byte read, out of bounds (undefined behaviour, modelled as
`none`) whenever `PC ≥ 4096` — then `vm->PC += 2` with the `uint16_t`
wraparound. -/
def fetch (vm : Chip8) : Option Chip8 :=
  if h : vm.PC < 4096 then
    some { vm with instr := (vm.ram ⟨vm.PC, h⟩).val, PC := (vm.PC + 2) % 65536 }
  else none

/-- Line 227: `vm->instr = vm->ram[vm->PC & 0xFFF]*0x100 +
vm->ram[(vm->PC+1) & 0xFFF]`.  The `& 0xFFF` mask is written as
`% 4096` so the index proofs are immediate; `n &&& 0xFFF = n % 4096`
(`Nat.and_pow_two_sub_one_eq_mod`). -/
def decodeWord (vm : Chip8) : Nat :=
  (vm.ram ⟨vm.PC % 4096, by omega⟩).val * 0x100 +
    (vm.ram ⟨(vm.PC + 1) % 4096, by omega⟩).val

/-- The `INSTRUCTION_LIST` dispatch chain as expanded at line 237:
`if (test) { op; } else if ... else {}`, in source order, on the state
`vm` whose `instr` latch already holds the word `w`.

Transcription notes, arm by arm:
* the `SYS addr` and `RND Vx, byte` rows pass the 4-parameter macro `o`
  only 3 arguments (their `op` argument is missing altogether), so they
  contribute no test and no effect and are omitted here;
* the `SE Vx, Vy` row reads `if (V[x] == V[y] PC += 2 )` in the source;
  it is transcribed as the comparison-then-skip it abbreviates;
* the `SE`/`SNE Vx, byte` rows compare against `nn`, an identifier the
  source never defines (`decode` defines `kk`); `kk` is used here;
* the `DRW` row invokes `display(x, y, n, I)`, but `display` is the
  pixel array, not a function — and the free function `draw`
  (lines 168–170) has an empty body — so the arm has no effect;
* rows whose `op` argument is empty (`RET`, `CALL`, `ADD Vx, Vy`,
  `SUB`, `SHR`, `SUBN`, `SHL`, `SNE Vx, Vy`, `JP V0`, `SKP`, and the
  whole `Fx07`–`Fx65` block except `Fx1E`) leave the state unchanged;
* the final `else {}` (line 237) is the last `vm`. -/
def dispatch (vm : Chip8) (w : Nat) : Chip8 :=
  if field_u w = 0x0 ∧ field_kk w = 0xE0 then
    { vm with display := reset vm.display } else
  if field_u w = 0x0 ∧ field_kk w = 0xEE then vm else
  if field_u w = 0x1 then { vm with PC := field_nnn w } else
  if field_u w = 0x2 then vm else
  if field_u w = 0x3 then
    (if Vget vm (field_x w) = field_kk w then
      { vm with PC := (vm.PC + 2) % 65536 } else vm) else
  if field_u w = 0x4 then
    (if Vget vm (field_x w) ≠ field_kk w then
      { vm with PC := (vm.PC + 2) % 65536 } else vm) else
  if field_u w = 0x5 then
    (if Vget vm (field_x w) = Vget vm (field_y w) then
      { vm with PC := (vm.PC + 2) % 65536 } else vm) else
  if field_u w = 0x6 then Vset vm (field_x w) (field_kk w) else
  if field_u w = 0x7 then
    Vset vm (field_x w) (Vget vm (field_x w) + field_kk w) else
  if field_u w = 0x8 ∧ field_n w = 0x0 then
    Vset vm (field_x w) (Vget vm (field_y w)) else
  if field_u w = 0x8 ∧ field_n w = 0x1 then
    Vset vm (field_x w) (Vget vm (field_x w) ||| Vget vm (field_y w)) else
  if field_u w = 0x8 ∧ field_n w = 0x2 then
    Vset vm (field_x w) (Vget vm (field_x w) &&& Vget vm (field_y w)) else
  if field_u w = 0x8 ∧ field_n w = 0x3 then
    Vset vm (field_x w) (Vget vm (field_x w) ^^^ Vget vm (field_y w)) else
  if field_u w = 0x8 ∧ field_n w = 0x4 then vm else
  if field_u w = 0x8 ∧ field_n w = 0x5 then vm else
  if field_u w = 0x8 ∧ field_n w = 0x6 then vm else
  if field_u w = 0x8 ∧ field_n w = 0x7 then vm else
  if field_u w = 0x8 ∧ field_n w = 0xE then vm else
  if field_u w = 0x9 then vm else
  if field_u w = 0xA then { vm with I := field_nnn w } else
  if field_u w = 0xB then vm else
  if field_u w = 0xD then vm else
  if field_u w = 0xE then vm else
  if field_u w = 0xF ∧ field_kk w = 0x07 then vm else
  if field_u w = 0xF ∧ field_kk w = 0x0A then vm else
  if field_u w = 0xF ∧ field_kk w = 0x15 then vm else
  if field_u w = 0xF ∧ field_kk w = 0x18 then vm else
  if field_u w = 0xF ∧ field_kk w = 0x1E then
    Vset vm (field_x w) (Vget vm (field_x w) + vm.I) else
  if field_u w = 0xF ∧ field_kk w = 0x29 then vm else
  if field_u w = 0xF ∧ field_kk w = 0x33 then vm else
  if field_u w = 0xF ∧ field_kk w = 0x55 then vm else
  if field_u w = 0xF ∧ field_kk w = 0x65 then vm else
  vm

/-- `decode` (lines 226–239): latch the big-endian word from the two
(masked) bytes at `PC`, then run the dispatch chain. -/
def decode (vm : Chip8) : Chip8 :=
  dispatch { vm with instr := decodeWord vm } (decodeWord vm)

/-- The write loop of `loadROM` (lines 149–151):
`vm->ram[i + 0x200] = buffer[i]` for `i = 0 .. fileSize-1`, expressed
as a recursion over the buffer with the running address.  A write past
the end of the 4096-byte array is undefined behaviour in C++; the whole
operation is modelled as `none` in that case. -/
def writeBytes : (Fin 4096 → Fin 256) → Nat → List (Fin 256) → Option (Fin 4096 → Fin 256)
  | ram, _, [] => some ram
  | ram, addr, b :: rest =>
    if h : addr < 4096 then
      writeBytes (Function.update ram ⟨addr, h⟩ b) (addr + 1) rest
    else none

/-- `loadROM` (lines 134–153).  The `Option (List (Fin 256))` argument
models the opened file: `none` when `file.is_open()` fails (the function
then does nothing), `some buffer` for the bytes read.  The only state
the function touches is `ram`, written from `0x200` upward with no size
check whatsoever. -/
def loadROM (file : Option (List (Fin 256))) (vm : Chip8) : Option Chip8 :=
  match file with
  | none => some vm
  | some buffer =>
    match writeBytes vm.ram 0x200 buffer with
    | none => none
    | some ram1 => some { vm with ram := ram1 }

/-- `initVM` (lines 241–245): set `PC = 0x200`, then `loadROM`.
Nothing else is initialized — not `SP`, not the timers, not the
display, and the fontset member is never copied into `ram`. -/
def initVM (file : Option (List (Fin 256))) (vm : Chip8) : Option Chip8 :=
  loadROM file { vm with PC := 0x200 }

/-- A definite pre-state used to instantiate theorems (all-zero RAM and
registers, `PC = 0x200`, fontset member as initialized). -/
def initState : Chip8 where
  ram := fun _ => 0
  V := fun _ => 0
  I := 0
  PC := 0x200
  instr := 0
  SP := 0
  stack := fun _ => 0
  display := fun _ _ => false
  dTimer := 0
  sTimer := 0
  fontset := fun i => fontsetBytes.getD i.val 0

/-! ## Helper lemmas -/

/-- The opcode-group mask keeps only bits 12–15, so the guarded value
`w &&& 0xF000` can never equal a nonzero constant below 4096.  This is
why all the `u == 0x1 … u == 0xF` dispatch guards are unsatisfiable. -/
lemma field_u_ne (w c : Nat) (h0 : 0 < c) (hc : c < 4096) : field_u w ≠ c := by
  intro h
  have h1 : (w &&& 0xF000) &&& 0xFFF = 0 := by
    rw [Nat.and_assoc, show (0xF000 : Nat) &&& 0xFFF = 0 from by decide, Nat.and_zero]
  have h2 : c &&& 0xFFF = c % 4096 := by
    have h3 : c &&& 2 ^ 12 - 1 = c % 2 ^ 12 := Nat.and_pow_two_sub_one_eq_mod c 12
    norm_num at h3
    exact h3
  rw [field_u, OP] at h
  rw [h, h2] at h1
  omega

/-- Characterization of the dispatch chain: because every guard other
than the two group-0 ones compares the unshifted group field
`w &&& 0xF000` with a constant in `0x1 … 0xF`, only the `CLS` arm
(clear the display) and the `RET` arm (empty effect) can ever fire;
every other word falls through to the empty `else {}`. -/
lemma dispatch_eq (vm : Chip8) (w : Nat) :
    dispatch vm w =
      if field_u w = 0x0 ∧ field_kk w = 0xE0 then
        { vm with display := fun _ _ => false }
      else vm := by
  have h1 : field_u w ≠ 0x1 := field_u_ne w 0x1 (by norm_num) (by norm_num)
  have h2 : field_u w ≠ 0x2 := field_u_ne w 0x2 (by norm_num) (by norm_num)
  have h3 : field_u w ≠ 0x3 := field_u_ne w 0x3 (by norm_num) (by norm_num)
  have h4 : field_u w ≠ 0x4 := field_u_ne w 0x4 (by norm_num) (by norm_num)
  have h5 : field_u w ≠ 0x5 := field_u_ne w 0x5 (by norm_num) (by norm_num)
  have h6 : field_u w ≠ 0x6 := field_u_ne w 0x6 (by norm_num) (by norm_num)
  have h7 : field_u w ≠ 0x7 := field_u_ne w 0x7 (by norm_num) (by norm_num)
  have h8 : field_u w ≠ 0x8 := field_u_ne w 0x8 (by norm_num) (by norm_num)
  have h9 : field_u w ≠ 0x9 := field_u_ne w 0x9 (by norm_num) (by norm_num)
  have hA : field_u w ≠ 0xA := field_u_ne w 0xA (by norm_num) (by norm_num)
  have hB : field_u w ≠ 0xB := field_u_ne w 0xB (by norm_num) (by norm_num)
  have hD : field_u w ≠ 0xD := field_u_ne w 0xD (by norm_num) (by norm_num)
  have hE : field_u w ≠ 0xE := field_u_ne w 0xE (by norm_num) (by norm_num)
  have hF : field_u w ≠ 0xF := field_u_ne w 0xF (by norm_num) (by norm_num)
  unfold dispatch reset
  simp only [h1, h2, h3, h4, h5, h6, h7, h8, h9, hA, hB, hD, hE, hF,
    false_and, if_false, ite_self]

/-- `decode` in closed form: latch the word, clear the display when the
word has a zero top nibble and low byte `0xE0`, otherwise change
nothing else. -/
lemma decode_eq (vm : Chip8) :
    decode vm =
      if field_u (decodeWord vm) = 0x0 ∧ field_kk (decodeWord vm) = 0xE0 then
        { vm with instr := decodeWord vm, display := fun _ _ => false }
      else { vm with instr := decodeWord vm } := by
  rw [decode, dispatch_eq]

/-- Concatenating a high byte and a low byte: the source's
`hi * 0x100 + lo` equals the big-endian `(hi <<< 8) ||| lo` whenever
`lo` is a byte. -/
lemma byte_concat (hi lo : Nat) (h : lo < 256) :
    hi * 0x100 + lo = (hi <<< 8) ||| lo := by
  have h1 : (2 : Nat) ^ 8 * hi + lo = 2 ^ 8 * hi ||| lo :=
    Nat.mul_add_lt_is_or (by norm_num [h]) hi
  calc hi * 0x100 + lo = 2 ^ 8 * hi + lo := by ring
    _ = 2 ^ 8 * hi ||| lo := h1
    _ = (hi <<< 8) ||| lo := by rw [Nat.shiftLeft_eq, Nat.mul_comm hi (2 ^ 8)]

/-! ## Claim theorems -/

/-- C1: the claim that the decoder's register-index fields satisfy
`x = (word & 0x0F00) >> 8` and `y = (word & 0x00F0) >> 4` (hence lie in
0–15) fails on the source: `decode` computes `x = word & Vx` and
`y = word & Vy` with no shift, so on the word `0x6125` the extracted
fields are 256 and 32 — outside the 16-element register file — while
the claimed formulas give 1 and 2. -/
theorem decoder_fields_unshifted :
    field_x 0x6125 = 0x0100 ∧ field_y 0x6125 = 0x0020 ∧
    (0x6125 &&& 0x0F00) >>> 8 = 0x1 ∧ (0x6125 &&& 0x00F0) >>> 4 = 0x2 ∧
    ¬ field_x 0x6125 < 16 ∧ ¬ field_y 0x6125 < 16 := by
  decide

/-- C2: `decode` forms the instruction word big-endian from the two
bytes at `PC` and `PC + 1`, both addresses masked modulo 4096 before
the read, and leaves `PC` untouched. -/
theorem decode_forms_word (vm : Chip8) :
    (decode vm).PC = vm.PC ∧
    (decode vm).instr =
      ((vm.ram ⟨vm.PC % 4096, by omega⟩).val <<< 8) |||
        (vm.ram ⟨(vm.PC + 1) % 4096, by omega⟩).val := by
  rw [decode_eq]
  have hb := byte_concat (vm.ram ⟨vm.PC % 4096, by omega⟩).val
    (vm.ram ⟨(vm.PC + 1) % 4096, by omega⟩).val
    (vm.ram ⟨(vm.PC + 1) % 4096, by omega⟩).isLt
  constructor
  · split <;> rfl
  · split <;> simpa [decodeWord] using hb

/-- C3: in a cycle iteration, `fetch` stores the single byte at the
cycle-start `PC` (a value below `0x100`) and advances `PC` by 2 before
`decode` runs, so the word `decode` latches and dispatches on is built
from the bytes at the cycle-start `PC + 2` and `PC + 3` (masked to 12
bits), overwriting the byte `fetch` stored. -/
theorem fetch_then_decode (vm : Chip8) (h : vm.PC < 4096) :
    ∃ s1, fetch vm = some s1 ∧
      s1.instr = (vm.ram ⟨vm.PC % 4096, by omega⟩).val ∧
      s1.instr < 0x100 ∧
      s1.PC = vm.PC + 2 ∧
      (decode s1).instr =
        ((vm.ram ⟨(vm.PC + 2) % 4096, by omega⟩).val <<< 8) |||
          (vm.ram ⟨(vm.PC + 3) % 4096, by omega⟩).val := by
  have hPC : vm.PC % 4096 = vm.PC := Nat.mod_eq_of_lt h
  have h2 : (vm.PC + 2) % 65536 = vm.PC + 2 := Nat.mod_eq_of_lt (by omega)
  refine ⟨_, by rw [fetch, dif_pos h], ?_, (vm.ram ⟨vm.PC, h⟩).isLt, h2, ?_⟩
  · show (vm.ram ⟨vm.PC, h⟩).val = (vm.ram ⟨vm.PC % 4096, by omega⟩).val
    congr 2
    exact (Fin.ext hPC.symm)
  · rw [decode_eq]
    have hw : decodeWord { vm with
        instr := (vm.ram ⟨vm.PC, h⟩).val, PC := (vm.PC + 2) % 65536 } =
        ((vm.ram ⟨(vm.PC + 2) % 4096, by omega⟩).val <<< 8) |||
          (vm.ram ⟨(vm.PC + 3) % 4096, by omega⟩).val := by
      rw [decodeWord]
      have h3 : ((vm.PC + 2) % 65536) % 4096 = (vm.PC + 2) % 4096 := by omega
      have h4 : ((vm.PC + 2) % 65536 + 1) % 4096 = (vm.PC + 3) % 4096 := by omega
      rw [show ((⟨(vm.PC + 2) % 65536 % 4096, by omega⟩ : Fin 4096)) =
          (⟨(vm.PC + 2) % 4096, by omega⟩ : Fin 4096) from Fin.ext h3,
        show ((⟨((vm.PC + 2) % 65536 + 1) % 4096, by omega⟩ : Fin 4096)) =
          (⟨(vm.PC + 3) % 4096, by omega⟩ : Fin 4096) from Fin.ext h4]
      exact byte_concat _ _ (vm.ram ⟨(vm.PC + 3) % 4096, by omega⟩).isLt
    split <;> simpa using hw

/-- RAM that holds one big-endian instruction word at `0x200` and zero
everywhere else. -/
def ramWord (hi lo : Fin 256) : Fin 4096 → Fin 256 :=
  fun a => if a.val = 0x200 then hi else if a.val = 0x201 then lo else 0

/-- Concrete state with the undefined word `0x8008` at `PC = 0x200`. -/
def s8008 : Chip8 := { initState with ram := ramWord 0x80 0x08 }

/-- C4: dispatch is not total on the source.  The word `0x8008` matches
none of the 35 instruction forms, yet `decode` simply falls through the
guard chain into the empty `else {}`: the state is unchanged apart from
the latched word, and no error of any kind is produced or surfaced
(`decode` has no error channel at all). -/
theorem unknown_word_silently_ignored :
    decode s8008 = { s8008 with instr := 0x8008 } := by
  rfl

/-- Concrete state with `ADD V0, V1` (word `0x8014`) at `PC = 0x200`,
`V0 = 200`, `V1 = 100`. -/
def sAdd : Chip8 :=
  { initState with
    ram := ramWord 0x80 0x14,
    V := fun j => if j.val = 0 then 200 else if j.val = 1 then 100 else 0 }

/-- C5: the `ADD Vx, Vy` arm (macro row `"8xy4"`) has an empty effect
and its guard compares the unshifted group field with `0x8`, so
executing the word `0x8014` with `V0 = 200`, `V1 = 100` changes no
register: `V0` stays 200 and `VF` stays 0, although the claimed
semantics require `V0 = (200 + 100) % 256 = 44` and `VF = 1` (the sum
300 overflows 255). -/
theorem add_vx_vy_unimplemented :
    (decode sAdd).V = sAdd.V ∧
    (decode sAdd).instr = 0x8014 ∧
    (decode sAdd).V ⟨0, by omega⟩ = 200 ∧
    (decode sAdd).V ⟨15, by omega⟩ = 0 ∧
    (200 + 100) % 256 = 44 ∧ 255 < 200 + 100 := by
  refine ⟨rfl, rfl, rfl, rfl, by norm_num, by norm_num⟩

/-- Concrete state with `ADD I, V0` (word `0xF01E`) at `PC = 0x200`,
`I = 0x300`, `V0 = 5`. -/
def sAddI : Chip8 :=
  { initState with
    ram := ramWord 0xF0 0x1E,
    I := 0x300,
    V := fun j => if j.val = 0 then 5 else 0 }

/-- C6: executing `ADD I, Vx` (word `0xF01E`) with `I = 0x300` and
`V0 = 5` leaves `I` at `0x300` instead of setting it to `0x305`: the
guard `u == 0xF` compares the unshifted group field and never holds, so
the arm — whose effect as written is in any case `V[x] += I`, mutating
a register rather than `I` — never runs, and the state is unchanged
apart from the latched word. -/
theorem add_i_vx_unimplemented :
    (decode sAddI).I = 0x300 ∧
    (decode sAddI).V = sAddI.V ∧
    (decode sAddI).instr = 0xF01E ∧
    sAddI.I + Vget sAddI 0 = 0x305 := by
  refine ⟨rfl, rfl, rfl, by decide⟩

/-- Concrete state with `CALL 0x300` (word `0x2300`) at `PC = 0x200`. -/
def sCall : Chip8 := { initState with ram := ramWord 0x23 0x00 }

/-- Concrete state with `RET` (word `0x00EE`) at `PC = 0x200`. -/
def sRet : Chip8 := { initState with ram := ramWord 0x00 0xEE }

/-- C8: the CALL/RET round trip does not hold on the source.  The
`CALL addr` arm has an empty effect (and its guard `u == 0x2` can never
hold against the unshifted group field), and the `RET` arm — whose
guard does fire — also has an empty effect, so neither instruction
touches `PC`, `SP` or the stack: dispatching `0x2300` leaves
`PC = 0x200` (not `0x300`) and `SP = 0` with nothing pushed, and
dispatching `0x00EE` changes nothing but the latched word. -/
theorem call_ret_unimplemented :
    decode sCall = { sCall with instr := 0x2300 } ∧
    (decode sCall).PC = 0x200 ∧
    (decode sCall).SP = 0 ∧
    (decode sCall).stack = sCall.stack ∧
    decode sRet = { sRet with instr := 0x00EE } := by
  exact ⟨rfl, rfl, rfl, rfl, rfl⟩

/-- When the whole write fits in RAM, the copy loop succeeds, writes
exactly the buffer at `addr, addr+1, …` and leaves every other cell
alone. -/
lemma writeBytes_spec (buf : List (Fin 256)) :
    ∀ (ram : Fin 4096 → Fin 256) (addr : Nat), addr + buf.length ≤ 4096 →
    ∃ ram1, writeBytes ram addr buf = some ram1 ∧
      (∀ (i : Nat) (hi : i < buf.length) (hb : addr + i < 4096),
        ram1 ⟨addr + i, hb⟩ = buf.get ⟨i, hi⟩) ∧
      (∀ a : Fin 4096, a.val < addr ∨ addr + buf.length ≤ a.val →
        ram1 a = ram a) := by
  induction buf with
  | nil =>
    intro ram addr _
    exact ⟨ram, rfl, fun i hi => absurd hi (by simp), fun a _ => rfl⟩
  | cons b rest ih =>
    intro ram addr hle
    simp only [List.length_cons] at hle
    have haddr : addr < 4096 := by omega
    obtain ⟨ram1, hw, hin, hout⟩ :=
      ih (Function.update ram ⟨addr, haddr⟩ b) (addr + 1) (by omega)
    refine ⟨ram1, ?_, ?_, ?_⟩
    · rw [writeBytes, dif_pos haddr]
      exact hw
    · intro i hi hb
      match i with
      | 0 =>
        have h0 : ram1 ⟨addr + 0, hb⟩ = Function.update ram ⟨addr, haddr⟩ b ⟨addr + 0, hb⟩ := by
          refine hout ⟨addr + 0, hb⟩ (Or.inl ?_)
          show addr + 0 < addr + 1
          omega
        rw [h0]
        have h1 : (⟨addr + 0, hb⟩ : Fin 4096) = ⟨addr, haddr⟩ :=
          Fin.ext (Nat.add_zero addr)
        rw [h1, Function.update_same]
        rfl
      | j + 1 =>
        have hj : j < rest.length := by simp at hi; omega
        have hb2 : addr + 1 + j < 4096 := by omega
        have h2 := hin j hj hb2
        have h1 : (⟨addr + (j + 1), hb⟩ : Fin 4096) = ⟨addr + 1 + j, hb2⟩ :=
          Fin.ext (by show addr + (j + 1) = addr + 1 + j; omega)
        rw [h1, h2]
        rfl
    · intro a ha
      simp only [List.length_cons] at ha
      have hoff : a.val < addr + 1 ∨ addr + 1 + rest.length ≤ a.val := by
        rcases ha with h | h
        · exact Or.inl (by omega)
        · exact Or.inr (by omega)
      rw [hout a hoff, Function.update_noteq]
      intro hcontra
      have hval : a.val = addr := by rw [hcontra]
      omega

/-- When the write would run past the end of RAM the loop reaches an
out-of-bounds store: the operation fails (undefined behaviour in the
C++ source, which performs no bounds check). -/
lemma writeBytes_oob (buf : List (Fin 256)) :
    ∀ (ram : Fin 4096 → Fin 256) (addr : Nat),
      addr ≤ 4096 → 4096 < addr + buf.length →
      writeBytes ram addr buf = none := by
  induction buf with
  | nil =>
    intro ram addr h1 h2
    simp at h2
    omega
  | cons b rest ih =>
    intro ram addr h1 h2
    simp only [List.length_cons] at h2
    rw [writeBytes]
    by_cases h : addr < 4096
    · rw [dif_pos h]
      exact ih _ (addr + 1) (by omega) (by omega)
    · rw [dif_neg h]

/-- Unfolding equation for `loadROM` on an opened file. -/
lemma loadROM_some_eq (vm : Chip8) (buffer : List (Fin 256)) :
    loadROM (some buffer) vm =
      match writeBytes vm.ram 0x200 buffer with
      | none => none
      | some r => some { vm with ram := r } := rfl

/-- C9: `loadROM` performs no size check.  On an image of 3585 bytes —
one more than the 4096 − 0x200 = 3584 the claim allows — the copy loop
runs past the end of the 4096-byte RAM (undefined behaviour, modelled
as failure of the whole operation); no ImageTooLarge condition is ever
raised or surfaced, and nothing prevents the engine from starting. -/
theorem loadROM_no_size_check :
    loadROM (some (List.replicate 3585 0)) initState = none ∧
    4096 - 0x200 < 3585 := by
  constructor
  · have h : writeBytes initState.ram 0x200 (List.replicate 3585 0) = none :=
      writeBytes_oob _ _ _ (by norm_num)
        (by rw [List.length_replicate]; norm_num)
    rw [loadROM_some_eq, h]
  · norm_num

/-- C10: for an image that fits (length ≤ 4096 − 0x200), `loadROM`
writes exactly the image bytes at `0x200 …`, leaves every other RAM
cell — in particular the whole reserved region below `0x200` — and
every other component of the VM state unchanged; and when the file
cannot be opened it changes nothing at all. -/
theorem loadROM_frame (vm : Chip8) (buf : List (Fin 256))
    (h : buf.length ≤ 4096 - 0x200) :
    (∃ vm1, loadROM (some buf) vm = some vm1 ∧
      (∀ (i : Nat) (hi : i < buf.length) (hb : 0x200 + i < 4096),
        vm1.ram ⟨0x200 + i, hb⟩ = buf.get ⟨i, hi⟩) ∧
      (∀ a : Fin 4096, a.val < 0x200 ∨ 0x200 + buf.length ≤ a.val →
        vm1.ram a = vm.ram a) ∧
      vm1.V = vm.V ∧ vm1.I = vm.I ∧ vm1.PC = vm.PC ∧ vm1.instr = vm.instr ∧
      vm1.SP = vm.SP ∧ vm1.stack = vm.stack ∧ vm1.display = vm.display ∧
      vm1.dTimer = vm.dTimer ∧ vm1.sTimer = vm.sTimer ∧
      vm1.fontset = vm.fontset) ∧
    loadROM none vm = some vm := by
  obtain ⟨ram1, hw, hin, hout⟩ := writeBytes_spec buf vm.ram 0x200 (by omega)
  refine ⟨⟨{ vm with ram := ram1 }, ?_, hin, hout,
    rfl, rfl, rfl, rfl, rfl, rfl, rfl, rfl, rfl, rfl⟩, rfl⟩
  rw [loadROM_some_eq, hw]

/-- Witness for C10 at a concrete state and 3-byte image. -/
theorem loadROM_frame_witness :
    ([1, 2, 3] : List (Fin 256)).length ≤ 4096 - 0x200 ∧
    ((∃ vm1, loadROM (some [1, 2, 3]) initState = some vm1 ∧
      (∀ (i : Nat) (hi : i < ([1, 2, 3] : List (Fin 256)).length)
          (hb : 0x200 + i < 4096),
        vm1.ram ⟨0x200 + i, hb⟩ = ([1, 2, 3] : List (Fin 256)).get ⟨i, hi⟩) ∧
      (∀ a : Fin 4096,
        a.val < 0x200 ∨ 0x200 + ([1, 2, 3] : List (Fin 256)).length ≤ a.val →
        vm1.ram a = initState.ram a) ∧
      vm1.V = initState.V ∧ vm1.I = initState.I ∧ vm1.PC = initState.PC ∧
      vm1.instr = initState.instr ∧ vm1.SP = initState.SP ∧
      vm1.stack = initState.stack ∧ vm1.display = initState.display ∧
      vm1.dTimer = initState.dTimer ∧ vm1.sTimer = initState.sTimer ∧
      vm1.fontset = initState.fontset) ∧
    loadROM none initState = some initState) :=
  ⟨by decide, loadROM_frame initState [1, 2, 3] (by decide)⟩

/-- Witness for C3 at the freshly initialized state (`PC = 0x200`). -/
theorem fetch_then_decode_witness :
    initState.PC < 4096 ∧
    (∃ s1, fetch initState = some s1 ∧
      s1.instr = (initState.ram ⟨initState.PC % 4096, by omega⟩).val ∧
      s1.instr < 0x100 ∧
      s1.PC = initState.PC + 2 ∧
      (decode s1).instr =
        ((initState.ram ⟨(initState.PC + 2) % 4096, by omega⟩).val <<< 8) |||
          (initState.ram ⟨(initState.PC + 3) % 4096, by omega⟩).val) :=
  ⟨by decide, fetch_then_decode initState (by decide)⟩

/-- A "dirty" pre-state: nonzero stack pointer and timers, one pixel
lit, RAM all zero.  `Chip8* vm` in `main` is an uninitialized pointer,
so nothing in the source rules such a pre-state out. -/
def sDirty : Chip8 :=
  { initState with
    SP := 7, dTimer := 9, sTimer := 3,
    display := fun i j => i.val == 0 && j.val == 0 }

set_option maxRecDepth 4000 in
/-- C7: `initVM` only sets `PC = 0x200` and copies the image; run on a
dirty pre-state with a 2-byte image it leaves the stack pointer at 7,
the timers at 9 and 3, the lit pixel lit, and every RAM byte below
`0x200` still zero — so the 80-byte glyph table (whose first byte is
`0xF0 ≠ 0`) is nowhere in the reserved low region, the fontset being a
separate struct member that is never copied into RAM. -/
theorem initVM_incomplete :
    (initVM (some [0x12, 0x34]) sDirty).map Chip8.PC = some 0x200 ∧
    (initVM (some [0x12, 0x34]) sDirty).map Chip8.SP = some 7 ∧
    (initVM (some [0x12, 0x34]) sDirty).map Chip8.dTimer = some 9 ∧
    (initVM (some [0x12, 0x34]) sDirty).map Chip8.sTimer = some 3 ∧
    (initVM (some [0x12, 0x34]) sDirty).map
      (fun s => s.display 0 0) = some true ∧
    (∀ a : Fin 0x200, (initVM (some [0x12, 0x34]) sDirty).map
      (fun s => s.ram (Fin.castLE (show (0x200 : Nat) ≤ 4096 by norm_num) a)) =
        some 0) ∧
    fontsetBytes.get ⟨0, by decide⟩ = 0xF0 := by
  refine ⟨rfl, rfl, rfl, rfl, rfl, by decide, rfl⟩

/-- Witness for C2 at the freshly initialized state. -/
theorem decode_forms_word_witness :
    (decode initState).PC = initState.PC ∧
    (decode initState).instr =
      ((initState.ram ⟨initState.PC % 4096, by omega⟩).val <<< 8) |||
        (initState.ram ⟨(initState.PC + 1) % 4096, by omega⟩).val :=
  decode_forms_word initState
